import Mathlib

/-!
# Escrow settlement core — shallow embedding

A shallow embedding of the escrow settlement core of the
`Build-Run-Release/First-Javascript-App` e-commerce server
(`src/ui_ecommerce/server.js`, with the SQLite variant in
`src/unnamed/part_000` as a secondary source).  JavaScript numbers are
idealized as exact rationals extended with a `nan` point (`JNum`); the
JavaScript literal `0.10` is modelled as the exact rational `1/10`.
Persistent collections (Mongo models / SQLite tables) are modelled as
total functions from ids to optional records; the session user is an
`Option Nat`.
-/

/-- JavaScript number: an exact rational or `NaN`.  Arithmetic propagates
`nan` as IEEE arithmetic does; finite arithmetic is idealized as exact. -/
inductive JNum where
  | nan : JNum
  | num (q : ℚ) : JNum
deriving DecidableEq, Repr

namespace JNum

/-- JavaScript `+` on numbers (NaN-propagating, finite part exact). -/
def add : JNum → JNum → JNum
  | nan, _ => nan
  | _, nan => nan
  | num a, num b => num (a + b)

/-- JavaScript `-` on numbers. -/
def sub : JNum → JNum → JNum
  | nan, _ => nan
  | _, nan => nan
  | num a, num b => num (a - b)

/-- JavaScript `*` on numbers. -/
def mul : JNum → JNum → JNum
  | nan, _ => nan
  | _, nan => nan
  | num a, num b => num (a * b)

end JNum

/-- Numeric value of a list of decimal digit characters. -/
def digitsToNat (ds : List Char) : ℕ :=
  ds.foldl (fun a c => 10 * a + (c.toNat - 48)) 0

/-- Parse a decimal literal prefix `[+-]?digits[.digits]?` of a character
list, as JavaScript `parseFloat` does on plain decimal strings (longest
valid prefix; trailing garbage ignored; no digits at all means `NaN`). -/
def parseFloatCore (cs : List Char) : Option ℚ :=
  let signAndRest : Bool × List Char :=
    match cs with
    | '-' :: r => (true, r)
    | '+' :: r => (false, r)
    | _ => (false, cs)
  let neg := signAndRest.1
  let cs0 := signAndRest.2
  let intDs := cs0.takeWhile Char.isDigit
  let cs1 := cs0.dropWhile Char.isDigit
  let fracDs : List Char :=
    match cs1 with
    | '.' :: r => r.takeWhile Char.isDigit
    | _ => []
  if intDs.isEmpty && fracDs.isEmpty then none
  else
    let den : ℕ := 10 ^ fracDs.length
    let mag : ℤ := Int.ofNat (digitsToNat intDs * den + digitsToNat fracDs)
    some (mkRat (if neg then -mag else mag) den)

/-- JavaScript `parseFloat` applied to an optional query-string value:
an absent parameter is `undefined`, and `parseFloat(undefined)` is `NaN`;
a present string parses by `parseFloatCore`, with `NaN` on failure. -/
def parseFloatJs : Option String → JNum
  | none => .nan
  | some s =>
    match parseFloatCore s.data with
    | none => .nan
    | some q => .num q

/-- An Order record (`orderSchema` in `src/unnamed/part_002` /
`orders` table): financial fields, status string, confirmation and
release flags. -/
structure Order where
  buyer_id : ℕ
  product_id : ℕ
  amount : JNum
  service_fee : JNum
  seller_amount : JNum
  status : String
  payment_reference : String
  buyer_confirmed : Bool
  seller_confirmed : Bool
  escrow_released : Bool
deriving DecidableEq, Repr

/-- A Product record: only the fields the escrow core reads. -/
structure Product where
  seller_id : ℕ
  price : JNum
deriving DecidableEq, Repr

/-- The persistent store visible to the escrow core: orders and products
keyed by id, and per-user `wallet_balance`. -/
@[ext]
structure St where
  orders : ℕ → Option Order
  products : ℕ → Option Product
  wallets : ℕ → JNum

/-- Writing an order record at an id (`order.save()` / the orders
`INSERT`/`UPDATE`): the store with that id now mapping to the record. -/
def St.setOrder (st : St) (oid : ℕ) (o : Order) : St :=
  { st with orders := fun i => if i = oid then some o else st.orders i }

/-- Crediting a user's wallet (`User.findByIdAndUpdate(id, { $inc:
{ wallet_balance: amt } })` / `UPDATE users SET wallet_balance =
wallet_balance + ?`). -/
def St.credit (st : St) (uid : ℕ) (amt : JNum) : St :=
  { st with wallets := fun i => if i = uid then (st.wallets i).add amt else st.wallets i }

/-- HTTP-visible outcome of a request handler. -/
inductive Resp where
  | redirectLogin
  | notFoundOrUnauthorized
  | errorConfirming
  | redirectBack
  | paymentSuccess
  | paymentFailed
deriving DecidableEq, Repr

/-- A JavaScript runtime error escaping an operation (here always the
`TypeError` from dereferencing a property of `null`). -/
inductive JsError where
  | typeError
deriving DecidableEq, Repr

/-- `checkEscrowRelease` (`server.js` lines 365–388): load the order by
id (dereferencing it unguarded — a missing order raises `TypeError` at
`order.buyer_confirmed`), and if `buyer_confirmed && seller_confirmed &&
!escrow_released`, read the product's `seller_id` (again unguarded:
`order.product_id.seller_id` raises `TypeError` when the populate found
no product), increment the seller's `wallet_balance` by the order's
`seller_amount`, then save the order with `escrow_released = true` and
`status = "completed"`; otherwise redirect back with no change. -/
def checkEscrowRelease (orderId : ℕ) (st : St) : Except JsError (St × Resp) :=
  match st.orders orderId with
  | none => .error .typeError
  | some o =>
    if o.buyer_confirmed && o.seller_confirmed && !o.escrow_released then
      match st.products o.product_id with
      | none => .error .typeError
      | some p =>
        let sellerId := p.seller_id
        let releaseAmount := o.seller_amount
        let savedOrder : Order :=
          { o with escrow_released := true, status := "completed" }
        .ok ((st.credit sellerId releaseAmount).setOrder orderId savedOrder, .redirectBack)
    else .ok (st, .redirectBack)

/-- `POST /order/:id/confirm/buyer` (`server.js` lines 330–344): require
a session user; find the order with matching id *and* `buyer_id` (one
generic `Order not found or unauthorized` response covers both a missing
order and a non-buyer caller); set `buyer_confirmed := true`, save, then
run `checkEscrowRelease`; a thrown error is caught and reported. -/
def confirmBuyer (user : Option ℕ) (orderId : ℕ) (st : St) : St × Resp :=
  match user with
  | none => (st, .redirectLogin)
  | some uid =>
    match st.orders orderId with
    | none => (st, .notFoundOrUnauthorized)
    | some o =>
      if o.buyer_id = uid then
        let st1 : St := st.setOrder orderId { o with buyer_confirmed := true }
        match checkEscrowRelease orderId st1 with
        | .ok r => r
        | .error _ => (st1, .errorConfirming)
      else (st, .notFoundOrUnauthorized)

/-- `POST /order/:id/confirm/seller` (`server.js` lines 346–363): require
a session user; load the order and its product; if the order or product
is missing or the product's `seller_id` is not the caller, answer the
same generic `Order not found or unauthorized`; otherwise set
`seller_confirmed := true`, save, then run `checkEscrowRelease`. -/
def confirmSeller (user : Option ℕ) (orderId : ℕ) (st : St) : St × Resp :=
  match user with
  | none => (st, .redirectLogin)
  | some uid =>
    match st.orders orderId with
    | none => (st, .notFoundOrUnauthorized)
    | some o =>
      match st.products o.product_id with
      | none => (st, .notFoundOrUnauthorized)
      | some p =>
        if p.seller_id = uid then
          let st1 : St := st.setOrder orderId { o with seller_confirmed := true }
          match checkEscrowRelease orderId st1 with
          | .ok r => r
          | .error _ => (st1, .errorConfirming)
        else (st, .notFoundOrUnauthorized)

/-- Confirmation role, selecting between the two confirm routes. -/
inductive Role where
  | buyer
  | seller
deriving DecidableEq, Repr

/-- Dispatch a confirm request to the route for the given role. -/
def confirm : Role → Option ℕ → ℕ → St → St × Resp
  | .buyer => confirmBuyer
  | .seller => confirmSeller

/-- The store after a confirm request (the response dropped). -/
def confirmSt (r : Role) (user : Option ℕ) (orderId : ℕ) (st : St) : St :=
  (confirm r user orderId st).1

/-- Outcome of `verifyPayment(reference)` (`server.js` lines 18–33): the
axios call either throws (caught, returning `null` — `fail`) or yields
`response.data` with a boolean `status` and, when `data.amount` is
present and truthy, the settled amount in minor units. -/
inductive GatewayResp where
  | fail
  | resp (status : Bool) (dataAmount : Option ℚ)
deriving DecidableEq, Repr

/-- Character-list prefix test: `listStarts cs ps` is true when `ps` is
a prefix of `cs` (an executable model of `String.startsWith`). -/
def listStarts : List Char → List Char → Bool
  | _, [] => true
  | [], _ :: _ => false
  | c :: cs, d :: ds => c == d && listStarts cs ds

/-- Model of JavaScript `key.startsWith(pre)` on the secret-key string. -/
def strStartsWith (s pre : String) : Bool :=
  listStarts s.data pre.data

/-- The `isVerified` flag computed by `GET /paystack/verify`
(`server.js` lines 290–300): true when the gateway answered with
`status === true`, and otherwise true exactly when `PAYSTACK_SECRET_KEY`
starts with the string `sk_test_placeholder` (the simulation fallback). -/
def verifyOutcome (secretKey : String) (gw : GatewayResp) : Bool :=
  match gw with
  | .resp true _ => true
  | _ => strStartsWith secretKey "sk_test_placeholder"

/-- Query string of `GET /paystack/verify`: `reference`, `productId` and
the client-proposed `amount` (absent parameters are `undefined`; the
amount is consumed only through `parseFloat`). -/
structure VerifyQuery where
  reference : String
  productId : ℕ
  amount : Option String
deriving DecidableEq, Repr

/-- The `productPrice` used by `GET /paystack/verify` (`server.js`
lines 289–295): `parseFloat(req.query.amount)`, overridden by the
gateway's settled `data.amount / 100` on a gateway success carrying a
truthy amount. -/
def verifiedPrice (q : VerifyQuery) (gw : GatewayResp) : JNum :=
  match gw with
  | .resp true (some a) => .num (a / 100)
  | _ => parseFloatJs q.amount

/-- The order record inserted by `Order.create` in `GET
/paystack/verify` (`server.js` lines 307–318): `amount` is
`verifiedPrice`, `service_fee = amount * 0.10`,
`seller_amount = amount - service_fee`, `status = "paid"`, both
confirmations false, escrow not released. -/
def createdOrder (userId : ℕ) (q : VerifyQuery) (gw : GatewayResp) : Order :=
  let productPrice := verifiedPrice q gw
  let serviceFee := productPrice.mul (.num (1 / 10))
  let sellerAmount := productPrice.sub serviceFee
  { buyer_id := userId
    product_id := q.productId
    amount := productPrice
    service_fee := serviceFee
    seller_amount := sellerAmount
    status := "paid"
    payment_reference := q.reference
    buyer_confirmed := false
    seller_confirmed := false
    escrow_released := false }

/-- `GET /paystack/verify` (`server.js` lines 284–327): run
`verifyPayment`; when the normalized outcome (`verifyOutcome`: gateway
success, else the placeholder-key simulation fallback) is verified,
insert `createdOrder` at the fresh id `newId` and answer the success
page; otherwise answer `Payment verification failed.` with no store
change. -/
def paystackVerify (secretKey : String) (userId : ℕ) (q : VerifyQuery)
    (gw : GatewayResp) (newId : ℕ) (st : St) : St × Resp :=
  if verifyOutcome secretKey gw then
    (st.setOrder newId (createdOrder userId q gw), .paymentSuccess)
  else (st, .paymentFailed)

/-- `paystackVerify` on a verified outcome: the created order is stored
at the fresh id and the success page is shown. -/
theorem paystackVerify_verified (k : String) (u : ℕ) (q : VerifyQuery)
    (gw : GatewayResp) (nid : ℕ) (st : St) (hv : verifyOutcome k gw = true) :
    paystackVerify k u q gw nid st
      = (st.setOrder nid (createdOrder u q gw), .paymentSuccess) := by
  unfold paystackVerify
  rw [hv]
  simp

/-- `paystackVerify` on an unverified outcome: no store change, failure
page. -/
theorem paystackVerify_not_verified (k : String) (u : ℕ) (q : VerifyQuery)
    (gw : GatewayResp) (nid : ℕ) (st : St) (hv : verifyOutcome k gw = false) :
    paystackVerify k u q gw nid st = (st, .paymentFailed) := by
  unfold paystackVerify
  rw [hv]
  simp

/-!
## Interleaving model of concurrent `checkEscrowRelease` calls

`checkEscrowRelease` is asynchronous: it awaits the order read, then (in
the releasing branch) awaits the wallet `$inc` and the order save as
separate statements with no transaction around them (`server.js` line
373: `// Transaction? For simplicity just update`).  Each in-flight call
is a task whose next pending await is its phase: `toRead` (about to read
the order and product and evaluate the guard on that snapshot) and
`toWrite` (guard held on the snapshot; the wallet credit and the order
save are still pending).  Interleaving tasks at these await points is
exactly the event-loop behaviour of the Node.js source.
-/

/-- Phase of one in-flight `checkEscrowRelease` invocation. -/
inductive RelTask where
  | toRead
  | toWrite (sellerId : ℕ) (amt : JNum) (snap : Order)
  | done
  | errored
deriving DecidableEq, Repr

/-- Advance one `checkEscrowRelease` task for order `orderId` by one
await-delimited step against the shared store. -/
def relStep (orderId : ℕ) (t : RelTask) (st : St) : RelTask × St :=
  match t with
  | .toRead =>
    match st.orders orderId with
    | none => (.errored, st)
    | some o =>
      if o.buyer_confirmed && o.seller_confirmed && !o.escrow_released then
        match st.products o.product_id with
        | none => (.errored, st)
        | some p => (.toWrite p.seller_id o.seller_amount o, st)
      else (.done, st)
  | .toWrite sid amt snap =>
    let savedOrder : Order :=
      { snap with escrow_released := true, status := "completed" }
    (.done, (st.credit sid amt).setOrder orderId savedOrder)
  | t => (t, st)

/-- Run two concurrent `checkEscrowRelease` tasks for the same order
under a schedule: `true` advances the first task, `false` the second. -/
def run2 (orderId : ℕ) : List Bool → RelTask × RelTask → St → (RelTask × RelTask) × St
  | [], ts, st => (ts, st)
  | true :: sch, (t1, t2), st =>
    let r := relStep orderId t1 st
    run2 orderId sch (r.1, t2) r.2
  | false :: sch, (t1, t2), st =>
    let r := relStep orderId t2 st
    run2 orderId sch (t1, r.1) r.2

/-!
## Reachability and invariants
-/

/-- Per-order invariant: a released order carries both confirmations and
the `completed` status, and a `completed` order has been released. -/
def InvOrder (o : Order) : Prop :=
  (o.escrow_released = true →
    o.buyer_confirmed = true ∧ o.seller_confirmed = true ∧ o.status = "completed")
  ∧ (o.status = "completed" → o.escrow_released = true)

instance (o : Order) : Decidable (InvOrder o) := by
  unfold InvOrder; infer_instance

/-- Store invariant: every stored order satisfies `InvOrder`. -/
def StoreInv (st : St) : Prop := ∀ oid o, st.orders oid = some o → InvOrder o

/-- One request handled by the escrow core: a payment verification (with
a fresh order id) or a confirm request by either role. -/
inductive Step : St → St → Prop where
  | pay (k : String) (u : ℕ) (q : VerifyQuery) (gw : GatewayResp) (nid : ℕ) (st : St)
      (hfresh : st.orders nid = none) : Step st (paystackVerify k u q gw nid st).1
  | conf (r : Role) (u : Option ℕ) (oid : ℕ) (st : St) : Step st (confirmSt r u oid st)

/-- Reachability: finitely many escrow-core requests from a start state. -/
inductive Reach : St → St → Prop where
  | refl (s : St) : Reach s s
  | tail (s t u : St) : Reach s t → Step t u → Reach s u

/-- Round-half-even (banker's rounding) of a rational to an integer. -/
def roundHalfEven (q : ℚ) : ℤ :=
  let f := ⌊q⌋
  let r := q - f
  if r < 1 / 2 then f
  else if 1 / 2 < r then f + 1
  else if 2 ∣ f then f else f + 1

/-- Modelled from the spec: the spec's fee rule (`serviceFee =
round(verifiedAmount * 0.10)` with round-half-even on the minor currency
unit, §4.2), stated on an amount in major units (`amount = minor/100`):
the fee in minor units is `roundHalfEven(amount*100 * 0.10)`, converted
back to major units.  The source computes the fee with no rounding step;
this definition exists only to compare the spec's words with the code. -/
def specServiceFee (amount : ℚ) : ℚ :=
  (roundHalfEven (amount * 100 * (1 / 10)) : ℚ) / 100

/-- The store with no orders and no products, all wallets zero. -/
def emptySt : St :=
  { orders := fun _ => none, products := fun _ => none, wallets := fun _ => .num 0 }

/-- Sample order 3 (buyer 1, product 5, amount 100, fee 10, seller
share 90) with both confirmations submitted and escrow not released. -/
def sampleOrder : Order :=
  { buyer_id := 1
    product_id := 5
    amount := .num 100
    service_fee := .num 10
    seller_amount := .num 90
    status := "paid"
    payment_reference := "REF_1"
    buyer_confirmed := true
    seller_confirmed := true
    escrow_released := false }

/-- Sample store: order 3 as above, product 5 sold by user 2, all
wallets at zero. -/
def sampleSt : St :=
  { orders := fun i => if i = 3 then some sampleOrder else none
    products := fun i => if i = 5 then some { seller_id := 2, price := .num 100 } else none
    wallets := fun _ => .num 0 }

/-- Sample order with only the buyer confirmation submitted. -/
def buyerOnlyOrder : Order :=
  { sampleOrder with seller_confirmed := false }

/-- Sample store holding `buyerOnlyOrder` at id 3. -/
def buyerOnlySt : St :=
  { sampleSt with orders := fun i => if i = 3 then some buyerOnlyOrder else none }

/-!
## Basic lemmas about the store operations
-/

@[simp]
theorem St.setOrder_orders (st : St) (oid : ℕ) (o : Order) (i : ℕ) :
    (st.setOrder oid o).orders i = if i = oid then some o else st.orders i := rfl

@[simp]
theorem St.setOrder_products (st : St) (oid : ℕ) (o : Order) :
    (st.setOrder oid o).products = st.products := rfl

@[simp]
theorem St.setOrder_wallets (st : St) (oid : ℕ) (o : Order) :
    (st.setOrder oid o).wallets = st.wallets := rfl

@[simp]
theorem St.credit_orders (st : St) (uid : ℕ) (amt : JNum) :
    (st.credit uid amt).orders = st.orders := rfl

@[simp]
theorem St.credit_products (st : St) (uid : ℕ) (amt : JNum) :
    (st.credit uid amt).products = st.products := rfl

@[simp]
theorem St.credit_wallets (st : St) (uid : ℕ) (amt : JNum) (i : ℕ) :
    (st.credit uid amt).wallets i =
      if i = uid then (st.wallets i).add amt else st.wallets i := rfl

theorem St.setOrder_setOrder (st : St) (oid : ℕ) (o1 o2 : Order) :
    (st.setOrder oid o1).setOrder oid o2 = st.setOrder oid o2 := by
  refine St.ext ?_ rfl rfl
  funext i
  by_cases h : i = oid <;> simp [h]

theorem St.setOrder_eq_self (st : St) (oid : ℕ) (o : Order) (ho : st.orders oid = some o) :
    st.setOrder oid o = st := by
  refine St.ext ?_ rfl rfl
  funext i
  by_cases h : i = oid
  · subst h; simp [ho]
  · simp [h]

/-- The releasing branch of `checkEscrowRelease`: present order, guard
true, present product. -/
theorem checkEscrowRelease_fire (oid : ℕ) (st : St) (o : Order) (p : Product)
    (ho : st.orders oid = some o) (hp : st.products o.product_id = some p)
    (hb : o.buyer_confirmed = true) (hs : o.seller_confirmed = true)
    (hr : o.escrow_released = false) :
    checkEscrowRelease oid st =
      .ok ((st.credit p.seller_id o.seller_amount).setOrder oid
            { o with escrow_released := true, status := "completed" }, .redirectBack) := by
  unfold checkEscrowRelease
  rw [ho]
  simp [hb, hs, hr, hp]

/-- The non-releasing branch of `checkEscrowRelease`: present order,
guard false. -/
theorem checkEscrowRelease_noFire (oid : ℕ) (st : St) (o : Order)
    (ho : st.orders oid = some o)
    (h : (o.buyer_confirmed && o.seller_confirmed && !o.escrow_released) = false) :
    checkEscrowRelease oid st = .ok (st, .redirectBack) := by
  unfold checkEscrowRelease
  rw [ho]
  simp [h]

/-- The exact fee-split identity of the code's arithmetic, over the
NaN-extended exact rationals: `fee + (p - fee) = p` for `fee = p * 1/10`. -/
theorem JNum.fee_split (p : JNum) :
    (p.mul (.num (1 / 10))).add (p.sub (p.mul (.num (1 / 10)))) = p := by
  cases p with
  | nan => rfl
  | num a =>
    show JNum.num (a * (1 / 10) + (a - a * (1 / 10))) = JNum.num a
    congr 1
    ring

/-!
## Claim theorems
-/

/-- C9: for an `orderId` with no stored order, `checkEscrowRelease`
does not produce any `ReleaseOutcome` (no `released=false`, no
`NotFound`): the unguarded dereference of the absent record raises a
runtime `TypeError`. -/
theorem claim_release_missing_order_type_error (oid : ℕ) (st : St)
    (h : st.orders oid = none) :
    checkEscrowRelease oid st = .error .typeError
    ∧ ∀ out : St × Resp, checkEscrowRelease oid st ≠ .ok out := by
  have he : checkEscrowRelease oid st = .error .typeError := by
    unfold checkEscrowRelease
    rw [h]
  exact ⟨he, fun out hc => by rw [he] at hc; cases hc⟩

/-- Witness for C9 at the empty store: the check on order id 0 raises
`TypeError`. -/
theorem claim_release_missing_order_type_error_witness :
    checkEscrowRelease 0 emptySt = .error .typeError :=
  (claim_release_missing_order_type_error 0 emptySt rfl).1

/-- C2: for a stored order whose product is stored, the release check
fires iff `buyer_confirmed && seller_confirmed && !escrow_released`;
on fire it adds exactly `seller_amount` to the seller's wallet (all
other wallets untouched), saves the order with `escrow_released = true`
and `status = "completed"` (all other orders untouched); when the guard
fails it returns the store completely unchanged. -/
theorem claim_release_check_fires_iff (oid : ℕ) (st : St) (o : Order) (p : Product)
    (ho : st.orders oid = some o) (hp : st.products o.product_id = some p) :
    (o.buyer_confirmed = true ∧ o.seller_confirmed = true ∧ o.escrow_released = false →
      ∃ st', checkEscrowRelease oid st = .ok (st', .redirectBack)
        ∧ st'.wallets p.seller_id = (st.wallets p.seller_id).add o.seller_amount
        ∧ (∀ i, i ≠ p.seller_id → st'.wallets i = st.wallets i)
        ∧ st'.orders oid = some { o with escrow_released := true, status := "completed" }
        ∧ (∀ j, j ≠ oid → st'.orders j = st.orders j))
    ∧ (¬(o.buyer_confirmed = true ∧ o.seller_confirmed = true ∧ o.escrow_released = false) →
      checkEscrowRelease oid st = .ok (st, .redirectBack)) := by
  constructor
  · rintro ⟨hb, hs, hr⟩
    refine ⟨_, checkEscrowRelease_fire oid st o p ho hp hb hs hr, ?_, ?_, ?_, ?_⟩
    · simp
    · intro i hi
      simp [hi]
    · simp
    · intro j hj
      simp [hj]
  · intro hng
    apply checkEscrowRelease_noFire oid st o ho
    cases hb : o.buyer_confirmed <;> cases hs : o.seller_confirmed <;>
      cases hr : o.escrow_released <;> simp_all

/-- Witness for C2 on `sampleSt`: releasing order 3 credits seller 2
with 90 and completes the order. -/
theorem claim_release_check_fires_iff_witness :
    ∃ st', checkEscrowRelease 3 sampleSt = .ok (st', .redirectBack)
      ∧ st'.wallets 2 = (sampleSt.wallets 2).add sampleOrder.seller_amount
      ∧ st'.orders 3 = some { sampleOrder with escrow_released := true, status := "completed" } := by
  obtain ⟨st', h1, h2, _, h4, _⟩ :=
    (claim_release_check_fires_iff 3 sampleSt sampleOrder
      { seller_id := 2, price := .num 100 } rfl rfl).1 ⟨rfl, rfl, rfl⟩
  exact ⟨st', h1, h2, h4⟩

/-- C5: a confirm request on a stored order by a logged-in user who is
not the required party (not the order's buyer for the buyer route, not
the product's seller for the seller route) is answered with the generic
`Order not found or unauthorized` response — the same response a missing
order gets — and the store is returned completely unchanged: no flag is
written and `checkEscrowRelease` is never reached. -/
theorem claim_confirm_unauthorized_unchanged (r : Role) (uid oid : ℕ) (st : St) (o : Order)
    (ho : st.orders oid = some o)
    (hbuy : r = .buyer → o.buyer_id ≠ uid)
    (hsell : r = .seller → ∀ p, st.products o.product_id = some p → p.seller_id ≠ uid) :
    confirm r (some uid) oid st = (st, .notFoundOrUnauthorized) := by
  cases r with
  | buyer =>
    show confirmBuyer (some uid) oid st = _
    simp only [confirmBuyer, ho]
    rw [if_neg (hbuy rfl)]
  | seller =>
    show confirmSeller (some uid) oid st = _
    simp only [confirmSeller, ho]
    cases hp : st.products o.product_id with
    | none => simp only []
    | some p =>
      simp only []
      rw [if_neg (hsell rfl p hp)]

/-- Witness for C5: user 99 (neither buyer 1 nor seller 2) confirming
order 3 as buyer leaves `sampleSt` unchanged with the generic response. -/
theorem claim_confirm_unauthorized_unchanged_witness :
    confirm .buyer (some 99) 3 sampleSt = (sampleSt, .notFoundOrUnauthorized) :=
  claim_confirm_unauthorized_unchanged .buyer 99 3 sampleSt sampleOrder rfl
    (fun _ => by decide) (fun h => nomatch h)

/-- C3: when the normalized verification outcome is false — the gateway
did not answer `status === true` and the simulation fallback is off —
`GET /paystack/verify` answers `Payment verification failed.` and the
store (in particular every order record) is unchanged; conversely the
handler changes an order slot only when the outcome is true. -/
theorem claim_unverified_payment_no_order (k : String) (u : ℕ) (q : VerifyQuery)
    (gw : GatewayResp) (nid : ℕ) (st : St) :
    (verifyOutcome k gw = false →
      paystackVerify k u q gw nid st = (st, .paymentFailed))
    ∧ (∀ i, (paystackVerify k u q gw nid st).1.orders i ≠ st.orders i →
        verifyOutcome k gw = true) := by
  have hmain : verifyOutcome k gw = false →
      paystackVerify k u q gw nid st = (st, .paymentFailed) := by
    intro h
    unfold paystackVerify
    simp [h]
  refine ⟨hmain, fun i hdiff => ?_⟩
  cases hv : verifyOutcome k gw with
  | false => rw [hmain hv] at hdiff; exact absurd rfl hdiff
  | true => rfl

/-- Witness for C3: with a non-placeholder key and a failed gateway
call, verification is false and no order is created in the empty store. -/
theorem claim_unverified_payment_no_order_witness :
    verifyOutcome "sk_live_key" .fail = false
    ∧ paystackVerify "sk_live_key" 1 ⟨"REF_1", 5, some "100"⟩ .fail 0 emptySt
        = (emptySt, .paymentFailed) :=
  ⟨by decide,
   (claim_unverified_payment_no_order "sk_live_key" 1 ⟨"REF_1", 5, some "100"⟩ .fail 0
      emptySt).1 (by decide)⟩

/-- Counterexample for C8: the sandbox fallback is decided by the
content of the gateway credential string itself.  With the gateway call
failed and no other configuration input, the key `sk_test_placeholder`
yields `verified=true` while the key `sk_live_key` yields
`verified=false`: the fallback is inferred from the key format, exactly
what the claim says never happens. -/
theorem claim_sandbox_flag_counterexample :
    verifyOutcome "sk_test_placeholder" .fail = true
    ∧ verifyOutcome "sk_live_key" .fail = false := by decide

/-- C8 (amended): the sandbox fallback is enabled exactly when
`PAYSTACK_SECRET_KEY` starts with `sk_test_placeholder` — an inference
from the credential string's content, not an explicit configuration
flag; when the key lacks that prefix, a reference the gateway cannot
verify yields `verified=false`. -/
theorem claim_sandbox_fallback_iff (k : String) (gw : GatewayResp) :
    verifyOutcome k gw = true ↔
      (∃ dA, gw = .resp true dA) ∨ strStartsWith k "sk_test_placeholder" = true := by
  cases gw with
  | fail =>
    show strStartsWith k "sk_test_placeholder" = true ↔ _
    simp
  | resp status dA =>
    cases status with
    | false =>
      show strStartsWith k "sk_test_placeholder" = true ↔ _
      simp
    | true =>
      exact ⟨fun _ => Or.inl ⟨dA, rfl⟩, fun _ => rfl⟩

/-- Counterexample for C6: for a verified amount of 0.25 currency units
(25 minor units) the code stores `service_fee = 0.25 * 0.10 = 1/40`
(0.025 — a fractional number of minor units), while the claim's
round-half-even on the minor currency unit gives `round(2.5)/100 =
2/100 = 1/50`: the source applies no rounding at all, so `serviceFee ≠
round(amount * 0.10)` under round-half-even. -/
theorem claim_fee_rounding_counterexample :
    ((paystackVerify "sk_test_placeholder" 1 ⟨"REF_1", 5, some "0.25"⟩ .fail 0
        emptySt).1.orders 0).map Order.service_fee = some (.num (1 / 40))
    ∧ specServiceFee (1 / 4) = 1 / 50
    ∧ (1 / 40 : ℚ) ≠ 1 / 50 := by
  refine ⟨?_, ?_, by norm_num⟩
  · have hv : verifyOutcome "sk_test_placeholder" .fail = true := by decide
    rw [paystackVerify_verified _ _ _ _ _ _ hv]
    have hp : verifiedPrice ⟨"REF_1", 5, some "0.25"⟩ .fail = JNum.num (mkRat 1 4) := by
      decide
    show some ((createdOrder 1 ⟨"REF_1", 5, some "0.25"⟩ .fail).service_fee)
        = some (.num (1 / 40))
    show some ((verifiedPrice ⟨"REF_1", 5, some "0.25"⟩ .fail).mul (.num (1 / 10)))
        = some (.num (1 / 40))
    rw [hp]
    show some (JNum.num (mkRat 1 4 * (1 / 10))) = some (.num (1 / 40))
    have : (mkRat 1 4 : ℚ) * (1 / 10) = 1 / 40 := by
      rw [Rat.mkRat_eq_div]
      norm_num
    rw [this]
  · have harg : (1 : ℚ) / 4 * 100 * (1 / 10) = 5 / 2 := by norm_num
    have hfl : ⌊(5 : ℚ) / 2⌋ = 2 := by
      rw [Int.floor_eq_iff]
      norm_num
    simp only [specServiceFee, roundHalfEven, harg, hfl]
    rw [if_neg (by push_cast; norm_num), if_neg (by push_cast; norm_num),
      if_pos (by decide)]
    push_cast
    norm_num

/-- C6 (amended): an order created by `GET /paystack/verify` has
`serviceFee = amount * 0.10` exactly as computed — no rounding step of
any kind — and `sellerAmount = amount - serviceFee`; in the exact
rational semantics of this model (the source evaluates the same
expressions in IEEE doubles) `serviceFee + sellerAmount = amount` holds
exactly, also when the amount is `NaN`. -/
theorem claim_fee_split_exact (k : String) (u : ℕ) (q : VerifyQuery) (gw : GatewayResp)
    (nid : ℕ) (st : St) (o : Order)
    (hfresh : st.orders nid = none)
    (h : (paystackVerify k u q gw nid st).1.orders nid = some o) :
    o.service_fee = o.amount.mul (.num (1 / 10))
    ∧ o.seller_amount = o.amount.sub o.service_fee
    ∧ o.service_fee.add o.seller_amount = o.amount := by
  cases hv : verifyOutcome k gw with
  | false =>
    rw [paystackVerify_not_verified k u q gw nid st hv] at h
    have h2 : st.orders nid = some o := h
    rw [hfresh] at h2
    cases h2
  | true =>
    rw [paystackVerify_verified k u q gw nid st hv] at h
    have h2 : (st.setOrder nid (createdOrder u q gw)).orders nid = some o := h
    rw [St.setOrder_orders, if_pos rfl] at h2
    injection h2 with h3
    subst h3
    exact ⟨rfl, rfl, JNum.fee_split _⟩

/-- Witness for C6 (amended) at a creation with amount string `100`:
the stored fee split sums back to the stored amount exactly. -/
theorem claim_fee_split_exact_witness :
    ∃ o, (paystackVerify "sk_test_placeholder" 1 ⟨"REF_1", 5, some "100"⟩ .fail 7
        emptySt).1.orders 7 = some o
      ∧ o.service_fee.add o.seller_amount = o.amount := by
  cases ho : (paystackVerify "sk_test_placeholder" 1 ⟨"REF_1", 5, some "100"⟩ .fail 7
      emptySt).1.orders 7 with
  | none => exact absurd ho (by decide)
  | some o =>
    exact ⟨o, rfl, (claim_fee_split_exact "sk_test_placeholder" 1
      ⟨"REF_1", 5, some "100"⟩ .fail 7 emptySt o rfl ho).2.2⟩

/-- C10: in sandbox-fallback mode (placeholder key, gateway not
successful) the created order's `amount` is exactly
`parseFloat(req.query.amount)` with no validation — `NaN` when the
parameter is absent or non-numeric — and `service_fee` and
`seller_amount` are derived from that same unvalidated value. -/
theorem claim_amount_unvalidated (k : String) (u : ℕ) (ref : String) (pid : ℕ)
    (amt : Option String) (gw : GatewayResp) (nid : ℕ) (st : St)
    (hk : strStartsWith k "sk_test_placeholder" = true)
    (hgw : gw = .fail ∨ ∃ dA, gw = .resp false dA) :
    ∃ o, (paystackVerify k u ⟨ref, pid, amt⟩ gw nid st).1.orders nid = some o
      ∧ o.amount = parseFloatJs amt
      ∧ o.service_fee = (parseFloatJs amt).mul (.num (1 / 10))
      ∧ o.seller_amount = (parseFloatJs amt).sub o.service_fee
      ∧ (amt = none → o.amount = .nan)
      ∧ (∀ s, amt = some s → parseFloatCore s.data = none → o.amount = .nan) := by
  have hv : verifyOutcome k gw = true := by
    rcases hgw with h | ⟨dA, h⟩ <;> subst h <;> exact hk
  have hprice : verifiedPrice ⟨ref, pid, amt⟩ gw = parseFloatJs amt := by
    rcases hgw with h | ⟨dA, h⟩ <;> subst h <;> rfl
  rw [paystackVerify_verified k u ⟨ref, pid, amt⟩ gw nid st hv]
  refine ⟨createdOrder u ⟨ref, pid, amt⟩ gw, ?_, ?_, ?_, ?_, ?_, ?_⟩
  · show (st.setOrder nid (createdOrder u ⟨ref, pid, amt⟩ gw)).orders nid
        = some (createdOrder u ⟨ref, pid, amt⟩ gw)
    rw [St.setOrder_orders, if_pos rfl]
  · exact hprice
  · show (verifiedPrice ⟨ref, pid, amt⟩ gw).mul (.num (1 / 10))
        = (parseFloatJs amt).mul (.num (1 / 10))
    rw [hprice]
  · show (verifiedPrice ⟨ref, pid, amt⟩ gw).sub
          ((verifiedPrice ⟨ref, pid, amt⟩ gw).mul (.num (1 / 10)))
        = (parseFloatJs amt).sub ((verifiedPrice ⟨ref, pid, amt⟩ gw).mul (.num (1 / 10)))
    rw [hprice]
  · intro h0
    subst h0
    show verifiedPrice ⟨ref, pid, none⟩ gw = .nan
    rw [hprice]
    rfl
  · intro s hs hnone
    subst hs
    show verifiedPrice ⟨ref, pid, some s⟩ gw = .nan
    rw [hprice]
    show (match parseFloatCore s.data with | none => JNum.nan | some q => JNum.num q)
        = .nan
    rw [hnone]

/-- Witness for C10: amount string `abc` creates an order whose amount
is `NaN`. -/
theorem claim_amount_unvalidated_witness :
    ∃ o, (paystackVerify "sk_test_placeholder" 1 ⟨"REF_1", 5, some "abc"⟩ .fail 0
        emptySt).1.orders 0 = some o
      ∧ o.amount = .nan := by
  obtain ⟨o, h1, _, _, _, _, h6⟩ := claim_amount_unvalidated "sk_test_placeholder" 1
    "REF_1" 5 (some "abc") .fail 0 emptySt (by decide) (Or.inl rfl)
  exact ⟨o, h1, h6 "abc" rfl (by decide)⟩

/-- C1: two concurrent `checkEscrowRelease` calls for order 3 of
`sampleSt` (both confirmations already submitted, escrow unreleased,
`seller_amount = 90`).  Under the interleaving read–read–write–write —
both calls pass the guard before either writes, which the source permits
because the read, the wallet `$inc` and the save are separate awaited
statements with no transaction — seller 2's wallet ends at `180`: it is
credited twice, not exactly once.  The sequential schedule of the same
two calls ends at `90`, the single-credit value the claim requires of
every interleaving. -/
theorem claim_concurrent_double_release :
    ((run2 3 [true, false, true, false] (.toRead, .toRead) sampleSt).2.wallets 2
        = .num 180)
    ∧ ((run2 3 [true, true, false, false] (.toRead, .toRead) sampleSt).2.wallets 2
        = .num 90)
    ∧ ((sampleSt.wallets 2).add sampleOrder.seller_amount = .num 90) := by
  refine ⟨?_, ?_, ?_⟩
  · simp only [run2, relStep, sampleSt, sampleOrder, St.credit, St.setOrder]
    norm_num [JNum.add]
  · simp only [run2, relStep, sampleSt, sampleOrder, St.credit, St.setOrder]
    norm_num [JNum.add]
  · show (JNum.num 0).add (.num 90) = .num 90
    show JNum.num (0 + 90) = .num 90
    norm_num

/-- Setting the buyer flag preserves the per-order invariant. -/
theorem InvOrder.setBuyer (o : Order) (h : InvOrder o) :
    InvOrder { o with buyer_confirmed := true } := by
  obtain ⟨h1, h2⟩ := h
  constructor
  · intro hrel
    obtain ⟨_, hs, hst⟩ := h1 hrel
    exact ⟨rfl, hs, hst⟩
  · exact h2

/-- Setting the seller flag preserves the per-order invariant. -/
theorem InvOrder.setSeller (o : Order) (h : InvOrder o) :
    InvOrder { o with seller_confirmed := true } := by
  obtain ⟨h1, h2⟩ := h
  constructor
  · intro hrel
    obtain ⟨hb, _, hst⟩ := h1 hrel
    exact ⟨hb, rfl, hst⟩
  · exact h2

/-- Writing an invariant-satisfying order preserves the store invariant. -/
theorem StoreInv.setOrder (st : St) (hinv : StoreInv st) (oid : ℕ) (o : Order)
    (ho : InvOrder o) : StoreInv (st.setOrder oid o) := by
  intro i oi hi
  rw [St.setOrder_orders] at hi
  by_cases h : i = oid
  · rw [if_pos h] at hi
    injection hi with h2
    subst h2
    exact ho
  · rw [if_neg h] at hi
    exact hinv i oi hi

/-- Crediting a wallet preserves the store invariant (orders untouched). -/
theorem StoreInv.credit (st : St) (hinv : StoreInv st) (uid : ℕ) (amt : JNum) :
    StoreInv (st.credit uid amt) := by
  intro i oi hi
  exact hinv i oi hi

/-- The order created by `GET /paystack/verify` satisfies the per-order
invariant: not released, status `paid`. -/
theorem createdOrder_invOrder (u : ℕ) (q : VerifyQuery) (gw : GatewayResp) :
    InvOrder (createdOrder u q gw) := by
  constructor
  · intro h
    have h2 : false = true := h
    cases h2
  · intro h
    have h2 : "paid" = "completed" := h
    exact absurd h2 (by decide)

/-- `checkEscrowRelease` preserves the store invariant on every
non-throwing run. -/
theorem checkEscrowRelease_inv (oid : ℕ) (st st' : St) (r : Resp)
    (hinv : StoreInv st) (h : checkEscrowRelease oid st = .ok (st', r)) :
    StoreInv st' := by
  unfold checkEscrowRelease at h
  split at h
  · cases h
  · rename_i o ho
    split at h
    · rename_i hg
      split at h
      · cases h
      · rename_i p hp
        injection h with h1
        injection h1 with h2 h3
        subst h2
        simp only [Bool.and_eq_true, Bool.not_eq_true'] at hg
        obtain ⟨⟨hb, hs⟩, hr⟩ := hg
        refine StoreInv.setOrder _ (StoreInv.credit st hinv _ _) oid _ ?_
        exact ⟨fun _ => ⟨hb, hs, rfl⟩, fun _ => rfl⟩
    · injection h with h1
      injection h1 with h2 h3
      subst h2
      exact hinv

/-- `POST /order/:id/confirm/buyer` preserves the store invariant. -/
theorem confirmBuyer_inv (u : Option ℕ) (oid : ℕ) (st : St) (hinv : StoreInv st) :
    StoreInv (confirmBuyer u oid st).1 := by
  cases u with
  | none => exact hinv
  | some uid =>
    cases ho : st.orders oid with
    | none =>
      simp only [confirmBuyer, ho]
      exact hinv
    | some o =>
      simp only [confirmBuyer, ho]
      by_cases hb : o.buyer_id = uid
      · rw [if_pos hb]
        have hinv1 : StoreInv (st.setOrder oid { o with buyer_confirmed := true }) :=
          StoreInv.setOrder st hinv oid _ (InvOrder.setBuyer o (hinv oid o ho))
        cases hres : checkEscrowRelease oid (st.setOrder oid { o with buyer_confirmed := true }) with
        | ok pr =>
          simp only [hres]
          exact checkEscrowRelease_inv oid _ pr.1 pr.2 hinv1 (by rw [hres])
        | error e =>
          simp only [hres]
          exact hinv1
      · rw [if_neg hb]
        exact hinv

/-- `POST /order/:id/confirm/seller` preserves the store invariant. -/
theorem confirmSeller_inv (u : Option ℕ) (oid : ℕ) (st : St) (hinv : StoreInv st) :
    StoreInv (confirmSeller u oid st).1 := by
  cases u with
  | none => exact hinv
  | some uid =>
    cases ho : st.orders oid with
    | none =>
      simp only [confirmSeller, ho]
      exact hinv
    | some o =>
      simp only [confirmSeller, ho]
      cases hp : st.products o.product_id with
      | none =>
        simp only []
        exact hinv
      | some p =>
        simp only []
        by_cases hs : p.seller_id = uid
        · rw [if_pos hs]
          have hinv1 : StoreInv (st.setOrder oid { o with seller_confirmed := true }) :=
            StoreInv.setOrder st hinv oid _ (InvOrder.setSeller o (hinv oid o ho))
          cases hres : checkEscrowRelease oid (st.setOrder oid { o with seller_confirmed := true }) with
          | ok pr =>
            simp only [hres]
            exact checkEscrowRelease_inv oid _ pr.1 pr.2 hinv1 (by rw [hres])
          | error e =>
            simp only [hres]
            exact hinv1
        · rw [if_neg hs]
          exact hinv

/-- Every single escrow-core request preserves the store invariant. -/
theorem step_inv (s t : St) (hst : Step s t) (hinv : StoreInv s) : StoreInv t := by
  cases hst with
  | pay k u q gw nid hfresh =>
    unfold paystackVerify
    by_cases hv : verifyOutcome k gw = true
    · rw [if_pos hv]
      exact StoreInv.setOrder s hinv nid _ (createdOrder_invOrder u q gw)
    · rw [if_neg hv]
      exact hinv
  | conf r u oid =>
    cases r with
    | buyer => exact confirmBuyer_inv u oid s hinv
    | seller => exact confirmSeller_inv u oid s hinv

/-- C4: (1) the invariant `escrow_released = true → buyer_confirmed ∧
seller_confirmed ∧ status = "completed"` (together with `completed →
released`) is preserved along every reachable sequence of escrow-core
requests; (2) an order whose seller has not confirmed is not released
and not `completed`, and a buyer-confirm request on it changes no wallet
balance: the seller is never credited while only the buyer has
confirmed. -/
theorem claim_release_invariant :
    (∀ s0 s, Reach s0 s → StoreInv s0 → StoreInv s)
    ∧ (∀ st : St, StoreInv st → ∀ oid o, st.orders oid = some o →
        o.seller_confirmed = false →
          o.escrow_released = false ∧ o.status ≠ "completed"
          ∧ ∀ u, (confirmSt .buyer u oid st).wallets = st.wallets) := by
  constructor
  · intro s0 s hr
    induction hr with
    | refl => exact id
    | tail t u hrt hstep ih =>
      intro h0
      exact step_inv t u hstep (ih h0)
  · intro st hinv oid o ho hs
    obtain ⟨h1, h2⟩ := hinv oid o ho
    have hrel : o.escrow_released = false := by
      cases hrelc : o.escrow_released
      · rfl
      · obtain ⟨_, hsc, _⟩ := h1 hrelc
        rw [hs] at hsc
        cases hsc
    refine ⟨hrel, ?_, ?_⟩
    · intro hcomp
      have hx := h2 hcomp
      rw [hrel] at hx
      cases hx
    · intro u
      cases u with
      | none => rfl
      | some uid =>
        show (confirmBuyer (some uid) oid st).1.wallets = st.wallets
        simp only [confirmBuyer, ho]
        by_cases hb : o.buyer_id = uid
        · rw [if_pos hb]
          have hnf : checkEscrowRelease oid
                (st.setOrder oid { o with buyer_confirmed := true })
              = .ok (st.setOrder oid { o with buyer_confirmed := true }, .redirectBack) := by
            apply checkEscrowRelease_noFire oid _ { o with buyer_confirmed := true }
            · rw [St.setOrder_orders, if_pos rfl]
            · show (true && o.seller_confirmed && !o.escrow_released) = false
              rw [hs]
              simp
          simp only [hnf]
          rfl
        · rw [if_neg hb]

/-- Witness for C4: the invariant holds of `sampleSt` (via reachability
reflexivity), and on `buyerOnlySt` (order 3 confirmed by the buyer only)
the order is unreleased, not `completed`, and a buyer-confirm request by
buyer 1 leaves every wallet unchanged. -/
theorem claim_release_invariant_witness :
    StoreInv sampleSt
    ∧ buyerOnlyOrder.escrow_released = false
    ∧ buyerOnlyOrder.status ≠ "completed"
    ∧ (confirmSt .buyer (some 1) 3 buyerOnlySt).wallets = buyerOnlySt.wallets := by
  have hsinv : StoreInv sampleSt := by
    intro oid o h
    by_cases h3 : oid = 3
    · subst h3
      have h4 : some sampleOrder = some o := h
      injection h4 with h5
      subst h5
      exact ⟨fun hr => absurd hr (by decide), fun hc => absurd hc (by decide)⟩
    · have h4 : (if oid = 3 then some sampleOrder else none) = some o := h
      rw [if_neg h3] at h4
      cases h4
  have hbinv : StoreInv buyerOnlySt := by
    intro oid o h
    by_cases h3 : oid = 3
    · subst h3
      have h4 : some buyerOnlyOrder = some o := h
      injection h4 with h5
      subst h5
      exact ⟨fun hr => absurd hr (by decide), fun hc => absurd hc (by decide)⟩
    · have h4 : (if oid = 3 then some buyerOnlyOrder else none) = some o := h
      rw [if_neg h3] at h4
      cases h4
  have h2 := claim_release_invariant.2 buyerOnlySt hbinv 3 buyerOnlyOrder rfl rfl
  exact ⟨claim_release_invariant.1 sampleSt sampleSt (Reach.refl sampleSt) hsinv,
    h2.1, h2.2.1, h2.2.2 (some 1)⟩

/-- Re-setting an already-true buyer flag writes the same record. -/
theorem Order.setBuyer_of_confirmed (o : Order) (h : o.buyer_confirmed = true) :
    ({ o with buyer_confirmed := true } : Order) = o := by
  cases o with
  | mk a b c d e f g bc sc er =>
    cases h
    rfl

/-- Re-setting an already-true seller flag writes the same record. -/
theorem Order.setSeller_of_confirmed (o : Order) (h : o.seller_confirmed = true) :
    ({ o with seller_confirmed := true } : Order) = o := by
  cases o with
  | mk a b c d e f g bc sc er =>
    cases h
    rfl

/-- `checkEscrowRelease` when the guard holds but the order's product is
missing: the unguarded `order.product_id.seller_id` raises `TypeError`. -/
theorem checkEscrowRelease_errorProd (oid : ℕ) (st : St) (o : Order)
    (ho : st.orders oid = some o)
    (hg : (o.buyer_confirmed && o.seller_confirmed && !o.escrow_released) = true)
    (hp : st.products o.product_id = none) :
    checkEscrowRelease oid st = .error .typeError := by
  unfold checkEscrowRelease
  rw [ho]
  simp only [hg, if_true, hp]

/-- A buyer-confirm on an order whose buyer flag is already set, when
the release guard cannot fire (one flag missing, already released, or
the product record is absent), returns the store unchanged. -/
theorem confirmBuyer_stable (uid oid : ℕ) (st : St) (o : Order)
    (ho : st.orders oid = some o) (hb : o.buyer_id = uid)
    (hbc : o.buyer_confirmed = true)
    (hsafe : (o.seller_confirmed && !o.escrow_released) = false
             ∨ st.products o.product_id = none) :
    (confirmBuyer (some uid) oid st).1 = st := by
  have hset : st.setOrder oid { o with buyer_confirmed := true } = st := by
    rw [Order.setBuyer_of_confirmed o hbc, St.setOrder_eq_self st oid o ho]
  simp only [confirmBuyer, ho]
  rw [if_pos hb, hset]
  rcases hsafe with hg | hp
  · have hng : (o.buyer_confirmed && o.seller_confirmed && !o.escrow_released) = false := by
      rw [hbc]
      simpa using hg
    rw [checkEscrowRelease_noFire oid st o ho hng]
  · by_cases hg : (o.buyer_confirmed && o.seller_confirmed && !o.escrow_released) = true
    · rw [checkEscrowRelease_errorProd oid st o ho hg hp]
    · have hng : (o.buyer_confirmed && o.seller_confirmed && !o.escrow_released) = false := by
        simpa using hg
      rw [checkEscrowRelease_noFire oid st o ho hng]

/-- A seller-confirm on an order whose seller flag is already set and
whose product is stored with the caller as seller, when the release
guard cannot fire, returns the store unchanged. -/
theorem confirmSeller_stable (uid oid : ℕ) (st : St) (o : Order) (p : Product)
    (ho : st.orders oid = some o) (hp : st.products o.product_id = some p)
    (hsid : p.seller_id = uid) (hsc : o.seller_confirmed = true)
    (hsafe : (o.buyer_confirmed && !o.escrow_released) = false) :
    (confirmSeller (some uid) oid st).1 = st := by
  have hset : st.setOrder oid { o with seller_confirmed := true } = st := by
    rw [Order.setSeller_of_confirmed o hsc, St.setOrder_eq_self st oid o ho]
  simp only [confirmSeller, ho, hp]
  rw [if_pos hsid, hset]
  have hng : (o.buyer_confirmed && o.seller_confirmed && !o.escrow_released) = false := by
    rw [hsc]
    cases hB : o.buyer_confirmed <;> cases hR : o.escrow_released <;> simp_all
  rw [checkEscrowRelease_noFire oid st o ho hng]

/-- Running the buyer-confirm route twice yields the same store as once. -/
theorem confirmBuyer_idem (u : Option ℕ) (oid : ℕ) (st : St) :
    (confirmBuyer u oid (confirmBuyer u oid st).1).1 = (confirmBuyer u oid st).1 := by
  cases u with
  | none => rfl
  | some uid =>
    cases ho : st.orders oid with
    | none =>
      have h1 : (confirmBuyer (some uid) oid st).1 = st := by
        simp only [confirmBuyer, ho]
      rw [h1]
      simp only [confirmBuyer, ho]
    | some o =>
      by_cases hb : o.buyer_id = uid
      · have hfirst : (confirmBuyer (some uid) oid st).1
            = (match checkEscrowRelease oid
                  (st.setOrder oid { o with buyer_confirmed := true }) with
               | .ok r => r
               | .error _ =>
                  (st.setOrder oid { o with buyer_confirmed := true },
                    Resp.errorConfirming)).1 := by
          simp only [confirmBuyer, ho]
          rw [if_pos hb]
        have ho1 : (st.setOrder oid { o with buyer_confirmed := true }).orders oid
            = some { o with buyer_confirmed := true } := by
          rw [St.setOrder_orders, if_pos rfl]
        by_cases hg : (({ o with buyer_confirmed := true } : Order).buyer_confirmed
            && ({ o with buyer_confirmed := true } : Order).seller_confirmed
            && !({ o with buyer_confirmed := true } : Order).escrow_released) = true
        · cases hp : (st.setOrder oid { o with buyer_confirmed := true }).products
              ({ o with buyer_confirmed := true } : Order).product_id with
          | some p =>
            have hg2 : (true && o.seller_confirmed && !o.escrow_released) = true := hg
            have hbF : ({ o with buyer_confirmed := true } : Order).buyer_confirmed = true :=
              rfl
            have hsF : ({ o with buyer_confirmed := true } : Order).seller_confirmed = true := by
              show o.seller_confirmed = true
              cases hS : o.seller_confirmed <;> simp_all
            have hrF : ({ o with buyer_confirmed := true } : Order).escrow_released = false := by
              show o.escrow_released = false
              cases hR : o.escrow_released <;> simp_all
            have hfire := checkEscrowRelease_fire oid
              (st.setOrder oid { o with buyer_confirmed := true })
              { o with buyer_confirmed := true } p ho1 hp hbF hsF hrF
            have hres1 : (confirmBuyer (some uid) oid st).1
                = ((st.setOrder oid { o with buyer_confirmed := true }).credit
                    p.seller_id ({ o with buyer_confirmed := true } : Order).seller_amount).setOrder
                    oid { { o with buyer_confirmed := true } with
                          escrow_released := true, status := "completed" } := by
              rw [hfirst, hfire]
            rw [hres1]
            apply confirmBuyer_stable uid oid _
              { { o with buyer_confirmed := true } with
                escrow_released := true, status := "completed" }
            · rw [St.setOrder_orders, if_pos rfl]
            · exact hb
            · rfl
            · left
              show (o.seller_confirmed && !true) = false
              simp
          | none =>
            have herr := checkEscrowRelease_errorProd oid
              (st.setOrder oid { o with buyer_confirmed := true })
              { o with buyer_confirmed := true } ho1 hg hp
            have hres1 : (confirmBuyer (some uid) oid st).1
                = st.setOrder oid { o with buyer_confirmed := true } := by
              rw [hfirst, herr]
            rw [hres1]
            apply confirmBuyer_stable uid oid _ { o with buyer_confirmed := true } ho1 hb rfl
            right
            exact hp
        · have hng : (({ o with buyer_confirmed := true } : Order).buyer_confirmed
              && ({ o with buyer_confirmed := true } : Order).seller_confirmed
              && !({ o with buyer_confirmed := true } : Order).escrow_released) = false := by
            simpa using hg
          have hnof := checkEscrowRelease_noFire oid
            (st.setOrder oid { o with buyer_confirmed := true })
            { o with buyer_confirmed := true } ho1 hng
          have hres1 : (confirmBuyer (some uid) oid st).1
              = st.setOrder oid { o with buyer_confirmed := true } := by
            rw [hfirst, hnof]
          rw [hres1]
          apply confirmBuyer_stable uid oid _ { o with buyer_confirmed := true } ho1 hb rfl
          left
          simpa using hng
      · have h1 : (confirmBuyer (some uid) oid st).1 = st := by
          simp only [confirmBuyer, ho]
          rw [if_neg hb]
        rw [h1]
        simp only [confirmBuyer, ho]
        rw [if_neg hb]

/-- Running the seller-confirm route twice yields the same store as
once. -/
theorem confirmSeller_idem (u : Option ℕ) (oid : ℕ) (st : St) :
    (confirmSeller u oid (confirmSeller u oid st).1).1 = (confirmSeller u oid st).1 := by
  cases u with
  | none => rfl
  | some uid =>
    cases ho : st.orders oid with
    | none =>
      have h1 : (confirmSeller (some uid) oid st).1 = st := by
        simp only [confirmSeller, ho]
      rw [h1]
      simp only [confirmSeller, ho]
    | some o =>
      cases hp : st.products o.product_id with
      | none =>
        have h1 : (confirmSeller (some uid) oid st).1 = st := by
          simp only [confirmSeller, ho, hp]
        rw [h1]
        simp only [confirmSeller, ho, hp]
      | some p =>
        by_cases hsid : p.seller_id = uid
        · have hfirst : (confirmSeller (some uid) oid st).1
              = (match checkEscrowRelease oid
                    (st.setOrder oid { o with seller_confirmed := true }) with
                 | .ok r => r
                 | .error _ =>
                    (st.setOrder oid { o with seller_confirmed := true },
                      Resp.errorConfirming)).1 := by
            simp only [confirmSeller, ho, hp]
            rw [if_pos hsid]
          have ho1 : (st.setOrder oid { o with seller_confirmed := true }).orders oid
              = some { o with seller_confirmed := true } := by
            rw [St.setOrder_orders, if_pos rfl]
          have hp1 : (st.setOrder oid { o with seller_confirmed := true }).products
              ({ o with seller_confirmed := true } : Order).product_id = some p := hp
          by_cases hg : (({ o with seller_confirmed := true } : Order).buyer_confirmed
              && ({ o with seller_confirmed := true } : Order).seller_confirmed
              && !({ o with seller_confirmed := true } : Order).escrow_released) = true
          · have hg2 : (o.buyer_confirmed && true && !o.escrow_released) = true := hg
            have hbF : ({ o with seller_confirmed := true } : Order).buyer_confirmed = true := by
              show o.buyer_confirmed = true
              cases hB : o.buyer_confirmed <;> simp_all
            have hsF : ({ o with seller_confirmed := true } : Order).seller_confirmed = true :=
              rfl
            have hrF : ({ o with seller_confirmed := true } : Order).escrow_released = false := by
              show o.escrow_released = false
              cases hR : o.escrow_released <;> simp_all
            have hfire := checkEscrowRelease_fire oid
              (st.setOrder oid { o with seller_confirmed := true })
              { o with seller_confirmed := true } p ho1 hp1 hbF hsF hrF
            have hres1 : (confirmSeller (some uid) oid st).1
                = ((st.setOrder oid { o with seller_confirmed := true }).credit
                    p.seller_id ({ o with seller_confirmed := true } : Order).seller_amount).setOrder
                    oid { { o with seller_confirmed := true } with
                          escrow_released := true, status := "completed" } := by
              rw [hfirst, hfire]
            rw [hres1]
            apply confirmSeller_stable uid oid _
              { { o with seller_confirmed := true } with
                escrow_released := true, status := "completed" } p
            · rw [St.setOrder_orders, if_pos rfl]
            · exact hp
            · exact hsid
            · rfl
            · show (o.buyer_confirmed && !true) = false
              simp
          · have hng : (({ o with seller_confirmed := true } : Order).buyer_confirmed
                && ({ o with seller_confirmed := true } : Order).seller_confirmed
                && !({ o with seller_confirmed := true } : Order).escrow_released) = false := by
              simpa using hg
            have hnof := checkEscrowRelease_noFire oid
              (st.setOrder oid { o with seller_confirmed := true })
              { o with seller_confirmed := true } ho1 hng
            have hres1 : (confirmSeller (some uid) oid st).1
                = st.setOrder oid { o with seller_confirmed := true } := by
              rw [hfirst, hnof]
            rw [hres1]
            apply confirmSeller_stable uid oid _ { o with seller_confirmed := true } p
              ho1 hp1 hsid rfl
            simpa using hng
        · have h1 : (confirmSeller (some uid) oid st).1 = st := by
            simp only [confirmSeller, ho, hp]
            rw [if_neg hsid]
          rw [h1]
          simp only [confirmSeller, ho, hp]
          rw [if_neg hsid]

/-- C7: confirming twice with the same role and user produces exactly
the same store — order records and wallet balances — as confirming once:
re-confirming an already-set flag has no additional effect, and a
release performed by the first call is not repeated by the second. -/
theorem claim_confirm_idempotent (r : Role) (u : Option ℕ) (oid : ℕ) (st : St) :
    confirmSt r u oid (confirmSt r u oid st) = confirmSt r u oid st := by
  cases r with
  | buyer => exact confirmBuyer_idem u oid st
  | seller => exact confirmSeller_idem u oid st
